import Mathlib

/-!
# Verification of the time-blocking / schedule-analysis engine

A shallow embedding of `planner/time_blocker.py` (class `TimeBlocker`) from the
faith-forward-daily-quotes repository, together with proofs of the spec's
testable properties.

Modelling conventions:

* Timestamps (`datetime`) are whole minutes since a fixed epoch, as `Int`.
  Day 0 of the epoch is a Monday, so `weekday(t) = (t / 1440) % 7` with
  Monday = 0, matching Python's `datetime.weekday()`.
* `timedelta` values are minutes, as `Int`.
* Python float scores are modelled as exact rationals `ℚ`.
* The event store (`EventManager.get_events`) is an external collaborator and
  is passed in as a function from a query window to the list of events it
  returns.
* Python's stable `sorted`/`list.sort` is modelled by `List.insertionSort`,
  which is a stable sort for a total transitive relation, hence has the same
  input/output behaviour.
-/

namespace TimeBlocker

/-- Embeds `planner.event_manager.Event` (only the fields the time-blocking
core reads): a title and optional start/end timestamps in minutes. -/
structure Event where
  title : String
  start_time : Option Int
  end_time : Option Int
deriving DecidableEq, Repr

/-- Embeds `planner.time_blocker.TimeBlock`: a suggested slot with a score
(0-100) and a human-readable reason. -/
structure TimeBlock where
  start_time : Int
  end_time : Int
  score : ℚ
  reason : String
deriving DecidableEq, Repr

/-- The pair (start, end) of an event when both are present; events lacking
either are excluded from interval computation (the filter
`[e for e in day_events if e.start_time and e.end_time]`). -/
def eventInterval (e : Event) : Option (Int × Int) :=
  match e.start_time, e.end_time with
  | some s, some t => some (s, t)
  | _, _ => none

/-- Sort key used by `_find_free_slots`: ascending event start time
(`key=lambda x: x.start_time`). -/
def startLE (a b : Int × Int) : Prop := a.1 ≤ b.1

instance : DecidableRel startLE := fun a b => inferInstanceAs (Decidable (a.1 ≤ b.1))

instance : IsTotal (Int × Int) startLE := ⟨fun a b => Int.le_total a.1 b.1⟩

instance : IsTrans (Int × Int) startLE := ⟨fun _ _ _ h h' => le_trans h h'⟩

/-- The `for i in range(len(sorted_events) - 1)` loop of `_find_free_slots`:
one candidate slot per consecutive pair of sorted events whose gap fits the
duration. -/
def slots_between (duration : Int) (sorted_events : List (Int × Int)) : List (Int × Int) :=
  (sorted_events.zip sorted_events.tail).filterMap fun p =>
    let gap_start := p.1.2
    let gap_end := p.2.1
    if gap_end - gap_start ≥ duration then
      if gap_start + duration ≤ gap_end then some (gap_start, gap_start + duration) else none
    else none

/-- The day's both-timed events as (start, end) pairs, sorted by start time:
`sorted(<filtered events>, key=lambda x: x.start_time)` in `_find_free_slots`. -/
def sortedIntervals (day_events : List Event) : List (Int × Int) :=
  List.insertionSort startLE (day_events.filterMap eventInterval)

/-- The "check slot before first event" block of `_find_free_slots`. -/
def slot_before_first (work_start work_end duration : Int) :
    List (Int × Int) → List (Int × Int)
  | [] => if work_end - work_start ≥ duration then [(work_start, work_start + duration)] else []
  | e :: _ =>
    if work_start < e.1 then
      if e.1 - work_start ≥ duration then [(work_start, work_start + duration)] else []
    else []

/-- The "check slot after last event" block of `_find_free_slots` (its `else`
arm is the trailing `elif` for a day with no qualifying events). -/
def slot_after_last (work_start work_end duration : Int)
    (sorted_events : List (Int × Int)) : List (Int × Int) :=
  match sorted_events.getLast? with
  | some l =>
    if work_end - l.2 ≥ duration then
      if l.2 + duration ≤ work_end then [(l.2, l.2 + duration)] else []
    else []
  | none => if work_end - work_start ≥ duration then [(work_start, work_start + duration)] else []

/-- Embeds `TimeBlocker._find_free_slots`: free candidate intervals of length
`duration` in the working window, given the day's events; the three appends
happen in source order. -/
def find_free_slots (work_start work_end : Int) (day_events : List Event)
    (duration : Int) : List (Int × Int) :=
  let sorted_events := sortedIntervals day_events
  slot_before_first work_start work_end duration sorted_events
    ++ slots_between duration sorted_events
    ++ slot_after_last work_start work_end duration sorted_events

-- Concrete checks of the finder against hand-traced behaviour of the Python
-- implementation (overlapping events, empty day with its duplicated slot,
-- out-of-window event).
example :
    find_free_slots 540 1020
      [⟨"A", some 540, some 1000⟩, ⟨"B", some 560, some 580⟩, ⟨"C", some 900, some 910⟩] 60
    = [(580, 640), (910, 970)] := by decide

example : find_free_slots 540 1020 [] 60 = [(540, 600), (540, 600)] := by decide

example : find_free_slots 540 1020 [⟨"E", some 300, some 360⟩] 60 = [(360, 420)] := by decide

/-- The calendar date of a timestamp, as a day index (`datetime.date()`). -/
def dateOf (t : Int) : Int := t / 1440

/-- Minute-of-day of a timestamp (`start_time.hour * 60 + start_time.minute`). -/
def minuteOfDay (t : Int) : Int := t % 1440

/-- Hour-of-day of a timestamp (`start_time.hour`). -/
def hourOf (t : Int) : Int := t % 1440 / 60

/-- Weekday of a timestamp, Monday = 0 (`datetime.weekday()`); day 0 of the
epoch is a Monday. -/
def weekdayOf (t : Int) : Int := dateOf t % 7

/-- One entry of `TimeBlocker.event_type_preferences`: preference profile of
an event category. -/
structure Preference where
  preferred_times : List (Int × Int)
  avoid_times : List (Int × Int)
  min_duration : Int
  max_duration : Int
deriving DecidableEq, Repr

/-- Embeds the `TimeBlocker.event_type_preferences` dict: the static category
profile table; `none` models a key absent from the dict. -/
def event_type_preferences (event_type : String) : Option Preference :=
  if event_type = "meeting" then
    some ⟨[(10, 0), (14, 0), (15, 0)], [(12, 0), (17, 0)], 30, 120⟩
  else if event_type = "call" then
    some ⟨[(10, 0), (14, 0), (15, 30)], [(12, 0), (17, 0)], 15, 60⟩
  else if event_type = "focus" then
    some ⟨[(9, 0), (10, 0), (14, 0)], [(12, 0), (16, 0)], 60, 240⟩
  else if event_type = "lunch" then
    some ⟨[(12, 0), (12, 30), (13, 0)], [(9, 0), (16, 0)], 30, 90⟩
  else if event_type = "break" then
    some ⟨[(10, 30), (15, 0), (15, 30)], [(12, 0), (17, 0)], 15, 30⟩
  else none

/-- Embeds `TimeBlocker._get_buffer_time`: minutes of free space between
`target_time` and the nearest qualifying event (60 if there is none). -/
def get_buffer_time (target_time : Int) (day_events : List Event) (before : Bool) : Int :=
  let relevant_events := day_events.filterMap fun e =>
    match eventInterval e with
    | none => none
    | some p =>
      if before then (if p.2 ≤ target_time then some p else none)
      else (if target_time ≤ p.1 then some p else none)
  match relevant_events with
  | [] => 60
  | p :: rest =>
    if before then target_time - rest.foldl (fun m q => max m q.2) p.2
    else rest.foldl (fun m q => min m q.1) p.1 - target_time

/-- Embeds the `type_keywords` dict of `TimeBlocker._are_event_types_similar`. -/
def type_keywords (type1 : String) : List String :=
  if type1 = "meeting" then ["meeting", "standup", "sync", "review", "discussion"]
  else if type1 = "call" then ["call", "phone", "interview", "chat"]
  else if type1 = "focus" then ["focus", "work", "coding", "development", "analysis"]
  else if type1 = "lunch" then ["lunch", "meal", "eat", "food"]
  else if type1 = "break" then ["break", "rest", "coffee", "tea"]
  else []

/-- Embeds `TimeBlocker._are_event_types_similar`: keyword substring match on
the lower-cased title. -/
def are_event_types_similar (type1 : String) (event_title : String) : Bool :=
  let title_lower := event_title.toLower
  (type_keywords type1).any fun keyword => decide (keyword.toList <:+: title_lower.toList)

/-- Embeds `TimeBlocker._count_similar_events_nearby`: similar-titled events
starting within two hours of the proposed slot. -/
def count_similar_events_nearby (start_time end_time : Int) (event_type : String)
    (day_events : List Event) : Nat :=
  let window_start := start_time - 120
  let window_end := end_time + 120
  (day_events.filter fun e =>
    match e.start_time with
    | none => false
    | some s => decide (window_start ≤ s ∧ s ≤ window_end)
        && are_event_types_similar event_type e.title).length

/-- One iteration of the preferred-times loop of `_score_time_slot`:
`if time_diff <= 30: score += 20 - (time_diff / 30 * 20)`. -/
def preferredBonusStep (slot_minute : Int) (score : ℚ) (anchor : Int × Int) : ℚ :=
  let time_diff := |slot_minute - (anchor.1 * 60 + anchor.2)|
  if time_diff ≤ 30 then score + (20 - (time_diff : ℚ) / 30 * 20) else score

/-- One iteration of the avoided-times loop of `_score_time_slot`:
`if time_diff <= 60: score -= 15 - (time_diff / 60 * 15)`. -/
def avoidPenaltyStep (slot_minute : Int) (score : ℚ) (anchor : Int × Int) : ℚ :=
  let time_diff := |slot_minute - (anchor.1 * 60 + anchor.2)|
  if time_diff ≤ 60 then score - (15 - (time_diff : ℚ) / 60 * 15) else score

/-- Embeds `TimeBlocker._score_time_slot`: heuristic 0-100 desirability score
of a candidate slot. -/
def score_time_slot (start_time end_time : Int) (event_type : String)
    (day_events : List Event) : ℚ :=
  let score : ℚ := 50
  let prefs := event_type_preferences event_type
  let slot_minute := minuteOfDay start_time
  let preferred_times := (prefs.map Preference.preferred_times).getD []
  let avoid_times := (prefs.map Preference.avoid_times).getD []
  let score := preferred_times.foldl (preferredBonusStep slot_minute) score
  let score := avoid_times.foldl (avoidPenaltyStep slot_minute) score
  let buffer_before := get_buffer_time start_time day_events true
  let buffer_after := get_buffer_time end_time day_events false
  let score := if buffer_before ≥ 15 then score + 10 else score
  let score := if buffer_after ≥ 15 then score + 10 else score
  let weekday := weekdayOf start_time
  let score :=
    if weekday = 0 then score + 5
    else if weekday = 4 then score - 5
    else if weekday ≥ 5 then score - 20
    else score
  let hour := hourOf start_time
  let score :=
    if 9 ≤ hour ∧ hour ≤ 11 then
      (if event_type = "focus" ∨ event_type = "meeting" then score + 15 else score)
    else if 14 ≤ hour ∧ hour ≤ 16 then
      (if event_type = "meeting" ∨ event_type = "call" then score + 10 else score)
    else if hour ≥ 17 then score - 20
    else score
  let score := if (12 ≤ hour ∧ hour ≤ 13) ∧ event_type ≠ "lunch" then score - 25 else score
  let similar_events_nearby := count_similar_events_nearby start_time end_time event_type day_events
  let score :=
    if similar_events_nearby > 0 then score + 5 * (similar_events_nearby : ℚ) else score
  max 0 (min 100 score)

/-- The `weekday_names` list of `_generate_reason`. -/
def weekday_names : List String :=
  ["Monday", "Tuesday", "Wednesday", "Thursday", "Friday", "Saturday", "Sunday"]

/-- Embeds `TimeBlocker._generate_reason`: deterministic human-readable
justification built from the same signals as the score. -/
def generate_reason (start_time end_time : Int) (event_type : String)
    (day_events : List Event) : String :=
  let hour := hourOf start_time
  let reasons : List String := []
  let reasons :=
    if 9 ≤ hour ∧ hour ≤ 11 then reasons ++ ["optimal morning focus time"]
    else if 14 ≤ hour ∧ hour ≤ 16 then reasons ++ ["productive afternoon slot"]
    else if hour = 12 then reasons ++ ["lunch time"]
    else if hour ≥ 17 then reasons ++ ["after-hours slot"]
    else reasons
  let buffer_before := get_buffer_time start_time day_events true
  let buffer_after := get_buffer_time end_time day_events false
  let reasons :=
    if buffer_before ≥ 30 ∧ buffer_after ≥ 30 then reasons ++ ["well-spaced with buffer time"]
    else if buffer_before ≥ 15 ∨ buffer_after ≥ 15 then reasons ++ ["has buffer time"]
    else reasons
  let similar_count := count_similar_events_nearby start_time end_time event_type day_events
  let reasons :=
    if similar_count > 0 then reasons ++ [s!"groups with {similar_count} similar events"]
    else reasons
  let weekday := weekday_names.getD (weekdayOf start_time).toNat ""
  let reasons :=
    if weekdayOf start_time = 0 then reasons ++ ["fresh start of week"]
    else if weekdayOf start_time = 4 then reasons ++ ["end of week wrap-up"]
    else reasons
  let reasons := if reasons = [] then ["available time slot"] else reasons
  weekday ++ " - " ++ String.intercalate ", " reasons

/-- Embeds `TimeBlocker._is_workday`: Monday-Friday check on a day index. -/
def is_workday (date_obj : Int) : Bool := date_obj % 7 < 5

/-- The day-restriction filter of `_analyze_day`:
`e.start_time and day_start <= e.start_time < day_end` (a `datetime` is always
truthy, so the test is "start present and within the day"). -/
def day_filter (date_obj : Int) (e : Event) : Bool :=
  match e.start_time with
  | none => false
  | some s => decide (date_obj * 1440 ≤ s ∧ s < date_obj * 1440 + 1440)

/-- Embeds `TimeBlocker._analyze_day`: score every free slot of one day. -/
def analyze_day (duration : Int) (event_type : String) (existing_events : List Event)
    (date_obj : Int) : List TimeBlock :=
  let day_start := date_obj * 1440
  let day_events := existing_events.filter (day_filter date_obj)
  let work_start := day_start + 540
  let work_end := day_start + 1020
  let free_slots := find_free_slots work_start work_end day_events duration
  free_slots.map fun slot =>
    { start_time := slot.1, end_time := slot.2,
      score := score_time_slot slot.1 slot.2 event_type day_events,
      reason := generate_reason slot.1 slot.2 event_type day_events }

/-- Sort order of `suggestions.sort(key=lambda x: x.score, reverse=True)`:
higher scores first. -/
def scoreDesc (a b : TimeBlock) : Prop := b.score ≤ a.score

instance : DecidableRel scoreDesc := fun a b => inferInstanceAs (Decidable (b.score ≤ a.score))

instance : IsTotal TimeBlock scoreDesc := ⟨fun a b => le_total b.score a.score⟩

instance : IsTrans TimeBlock scoreDesc := ⟨fun _ _ _ h h' => le_trans h' h⟩

/-- The full suggestion list of `suggest_time_blocks` before sorting: one pass
of `_analyze_day` per workday of the requested window. -/
def generated_suggestions (get_events : Int → Int → List Event) (duration_minutes : Int)
    (event_type : String) (start_date end_date : Int) : List TimeBlock :=
  let existing_events := get_events start_date end_date
  let days := (List.range (dateOf end_date - dateOf start_date + 1).toNat).map
    fun i => dateOf start_date + (i : Int)
  days.flatMap fun d =>
    if is_workday d then analyze_day duration_minutes event_type existing_events d else []

/-- The suggestion list after the stable descending sort by score. -/
def sorted_suggestions (get_events : Int → Int → List Event) (duration_minutes : Int)
    (event_type : String) (start_date end_date : Int) : List TimeBlock :=
  List.insertionSort scoreDesc
    (generated_suggestions get_events duration_minutes event_type start_date end_date)

/-- Embeds `TimeBlocker.suggest_time_blocks`: generate, sort by score
descending (stable), truncate to `max_suggestions`. The event store is the
external collaborator `get_events`. -/
def suggest_time_blocks (get_events : Int → Int → List Event) (duration_minutes : Int)
    (event_type : String) (start_date end_date : Int) (max_suggestions : Nat) : List TimeBlock :=
  (sorted_suggestions get_events duration_minutes event_type start_date end_date).take
    max_suggestions

/-- Embeds `TimeBlocker._events_overlap`: strict interval overlap, false when
any timestamp is missing. -/
def events_overlap (event1 event2 : Event) : Bool :=
  match eventInterval event1, eventInterval event2 with
  | some p1, some p2 => decide (p1.1 < p2.2 ∧ p2.1 < p1.2)
  | _, _ => false

/-- Embeds `TimeBlocker.suggest_optimal_meeting_times`: the simplified
implementation that does not consult participant calendars. Both calls to
`datetime.now()` are modelled by the single parameter `now`. -/
def suggest_optimal_meeting_times (get_events : Int → Int → List Event) (now : Int)
    (participants : List String) (duration_minutes : Int)
    (date_range_days : Int) : List TimeBlock :=
  suggest_time_blocks get_events duration_minutes "meeting" now
    (now + date_range_days * 1440) 5

-- Concrete check of the generation pipeline on an empty store over a single
-- Tuesday: the free work day yields the duplicated candidate slot.
example :
    (generated_suggestions (fun _ _ => []) 60 "meeting" 1440 1440).map
      (fun tb => (tb.start_time, tb.end_time)) = [(1980, 2040), (1980, 2040)] := by decide

example : score_time_slot 1980 2040 "meeting" [] = 85 := by
  norm_num [score_time_slot, event_type_preferences, minuteOfDay, preferredBonusStep,
    avoidPenaltyStep, get_buffer_time, eventInterval, weekdayOf, dateOf, hourOf,
    count_similar_events_nearby]

/-! ## Structural lemmas about the Free-Slot Finder -/

lemma mem_sortedIntervals {day_events : List Event} {p : Int × Int} :
    p ∈ sortedIntervals day_events ↔ p ∈ day_events.filterMap eventInterval := by
  simp [sortedIntervals]

lemma slots_between_mem {duration : Int} {L : List (Int × Int)} {s : Int × Int}
    (hs : s ∈ slots_between duration L) :
    ∃ c n, (c, n) ∈ L.zip L.tail ∧ s = (c.2, c.2 + duration) ∧
      duration ≤ n.1 - c.2 ∧ c.2 + duration ≤ n.1 := by
  simp only [slots_between, List.mem_filterMap] at hs
  obtain ⟨p, hp, he⟩ := hs
  by_cases h1 : p.2.1 - p.1.2 ≥ duration
  · rw [if_pos h1] at he
    by_cases h2 : p.1.2 + duration ≤ p.2.1
    · rw [if_pos h2] at he
      injection he with h
      exact ⟨p.1, p.2, hp, h.symm, h1, h2⟩
    · rw [if_neg h2] at he
      cases he
  · rw [if_neg h1] at he
    cases he

lemma slots_between_start {duration : Int} {L : List (Int × Int)} {s : Int × Int}
    (hs : s ∈ slots_between duration L) : ∃ z ∈ L, s.1 = z.2 := by
  obtain ⟨c, n, hzip, hse, -, -⟩ := slots_between_mem hs
  exact ⟨c, (List.of_mem_zip hzip).1, by rw [hse]⟩

lemma slot_before_first_mem {work_start work_end duration : Int} {L : List (Int × Int)}
    {s : Int × Int} (hs : s ∈ slot_before_first work_start work_end duration L) :
    s = (work_start, work_start + duration) ∧
      ((L = [] ∧ duration ≤ work_end - work_start) ∨
        ∃ e rest, L = e :: rest ∧ work_start < e.1 ∧ duration ≤ e.1 - work_start) := by
  match L with
  | [] =>
    simp only [slot_before_first] at hs
    split_ifs at hs with h
    · simp only [List.mem_singleton] at hs
      exact ⟨hs, Or.inl ⟨rfl, h⟩⟩
    · cases hs
  | e :: rest =>
    simp only [slot_before_first] at hs
    split_ifs at hs with h1 h2
    · simp only [List.mem_singleton] at hs
      exact ⟨hs, Or.inr ⟨e, rest, rfl, h1, h2⟩⟩
    · cases hs
    · cases hs

lemma slot_after_last_mem {work_start work_end duration : Int} {L : List (Int × Int)}
    {s : Int × Int} (hs : s ∈ slot_after_last work_start work_end duration L) :
    (∃ l, L.getLast? = some l ∧ s = (l.2, l.2 + duration) ∧
        duration ≤ work_end - l.2 ∧ l.2 + duration ≤ work_end) ∨
      (L = [] ∧ s = (work_start, work_start + duration) ∧
        duration ≤ work_end - work_start) := by
  unfold slot_after_last at hs
  rcases hL : L.getLast? with - | l
  · rw [hL] at hs
    dsimp only at hs
    split_ifs at hs with h
    · simp only [List.mem_singleton] at hs
      exact Or.inr ⟨List.getLast?_eq_none_iff.mp hL, hs, h⟩
    · cases hs
  · rw [hL] at hs
    dsimp only at hs
    split_ifs at hs with h1 h2
    · simp only [List.mem_singleton] at hs
      exact Or.inl ⟨l, rfl, hs, h1, h2⟩
    · cases hs
    · cases hs

lemma mem_find_free_slots {work_start work_end duration : Int} {day_events : List Event}
    {s : Int × Int} (hs : s ∈ find_free_slots work_start work_end day_events duration) :
    s ∈ slot_before_first work_start work_end duration (sortedIntervals day_events) ∨
      s ∈ slots_between duration (sortedIntervals day_events) ∨
      s ∈ slot_after_last work_start work_end duration (sortedIntervals day_events) := by
  simpa [find_free_slots, List.mem_append, or_assoc] using hs

/-- C2 (amended): when every timed input event lies inside the working window
(with start ≤ end), every candidate interval of the Free-Slot Finder lies
entirely within `[workStart, workEnd]`. -/
theorem free_slots_within_window (work_start work_end duration : Int)
    (day_events : List Event)
    (hin : ∀ p ∈ day_events.filterMap eventInterval,
      work_start ≤ p.1 ∧ p.1 ≤ p.2 ∧ p.2 ≤ work_end) :
    ∀ s ∈ find_free_slots work_start work_end day_events duration,
      work_start ≤ s.1 ∧ s.2 ≤ work_end := by
  intro s hs
  have hinL : ∀ p ∈ sortedIntervals day_events,
      work_start ≤ p.1 ∧ p.1 ≤ p.2 ∧ p.2 ≤ work_end :=
    fun p hp => hin p (mem_sortedIntervals.mp hp)
  rcases mem_find_free_slots hs with hbf | hbw | hal
  · obtain ⟨hse, hcase⟩ := slot_before_first_mem hbf
    subst hse
    rcases hcase with ⟨-, hd⟩ | ⟨e, rest, hLe, -, hd⟩
    · refine ⟨le_refl _, ?_⟩
      show work_start + duration ≤ work_end
      linarith
    · have he := hinL e (by rw [hLe]; exact List.mem_cons_self e rest)
      refine ⟨le_refl _, ?_⟩
      show work_start + duration ≤ work_end
      linarith [he.1, he.2.1, he.2.2]
  · obtain ⟨c, n, hzip, hse, hd, hfit⟩ := slots_between_mem hbw
    subst hse
    have hc := hinL c (List.of_mem_zip hzip).1
    have hn := hinL n (List.mem_of_mem_tail (List.of_mem_zip hzip).2)
    refine ⟨?_, ?_⟩
    · show work_start ≤ c.2
      linarith [hc.1, hc.2.1]
    · show c.2 + duration ≤ work_end
      linarith [hn.1, hn.2.1, hn.2.2]
  · rcases slot_after_last_mem hal with ⟨l, hL, hse, hd, hfit⟩ | ⟨-, hse, hd⟩
    · subst hse
      have hl := hinL l (List.mem_of_getLast?_eq_some hL)
      refine ⟨?_, hfit⟩
      show work_start ≤ l.2
      linarith [hl.1, hl.2.1]
    · subst hse
      refine ⟨le_refl _, ?_⟩
      show work_start + duration ≤ work_end
      linarith

/-! ## C1: slots never overlap events (needs non-overlapping, non-degenerate
events; refuted for overlapping events below) -/

lemma slots_between_cons_cons (duration : Int) (x y : Int × Int) (t : List (Int × Int)) :
    slots_between duration (x :: y :: t) =
      (if y.1 - x.2 ≥ duration then
        if x.2 + duration ≤ y.1 then [(x.2, x.2 + duration)] else []
      else []) ++ slots_between duration (y :: t) := by
  simp only [slots_between, List.zip_cons_cons, List.tail_cons, List.filterMap_cons]
  split_ifs <;> rfl

/-- In a start-sorted list of pairwise non-overlapping, non-degenerate
intervals, every earlier interval ends no later than a later one starts. -/
lemma chain_of_sorted_disjoint {L : List (Int × Int)}
    (hsorted : L.Pairwise startLE)
    (hdisj : L.Pairwise fun p q => ¬(p.1 < q.2 ∧ q.1 < p.2))
    (hvalid : ∀ p ∈ L, p.1 < p.2) :
    L.Pairwise fun p q => p.2 ≤ q.1 := by
  refine (hsorted.and hdisj).imp_of_mem ?_
  intro p q hp hq hpq
  by_contra hlt
  push_neg at hlt
  exact hpq.2 ⟨lt_of_le_of_lt hpq.1 (hvalid q hq), hlt⟩

lemma slots_between_disjoint {duration : Int} {L : List (Int × Int)}
    (hchain : L.Pairwise fun p q => p.2 ≤ q.1)
    (hvalid : ∀ p ∈ L, p.1 < p.2) :
    ∀ s ∈ slots_between duration L, ∀ p ∈ L, ¬(s.1 < p.2 ∧ p.1 < s.2) := by
  induction L with
  | nil => intro s hs; simp [slots_between] at hs
  | cons x t ih =>
    rcases t with - | ⟨y, t'⟩
    · intro s hs; simp [slots_between] at hs
    · intro s hs p hp
      rw [slots_between_cons_cons] at hs
      rcases List.mem_append.mp hs with hhead | htail
      · have hcond : y.1 - x.2 ≥ duration ∧ x.2 + duration ≤ y.1 ∧
            s = (x.2, x.2 + duration) := by
          split_ifs at hhead with h1 h2
          · exact ⟨h1, h2, List.mem_singleton.mp hhead⟩
          · cases hhead
          · cases hhead
        obtain ⟨h1, h2, rfl⟩ := hcond
        rcases List.mem_cons.mp hp with rfl | hp'
        · rintro ⟨hlt, -⟩
          have hlt' : p.2 < p.2 := hlt
          exact lt_irrefl _ hlt'
        · rintro ⟨-, hlt2⟩
          have hlt2' : p.1 < x.2 + duration := hlt2
          rcases List.mem_cons.mp hp' with rfl | hp''
          · linarith
          · have hyp : y.2 ≤ p.1 :=
              (List.pairwise_cons.mp (List.pairwise_cons.mp hchain).2).1 p hp''
            have hyv : y.1 < y.2 := hvalid y (by simp)
            linarith
      · have hchain' := (List.pairwise_cons.mp hchain).2
        have hvalid' : ∀ q ∈ y :: t', q.1 < q.2 :=
          fun q hq => hvalid q (List.mem_cons_of_mem _ hq)
        rcases List.mem_cons.mp hp with rfl | hp'
        · obtain ⟨z, hz, hs1⟩ := slots_between_start htail
          have hxz : p.2 ≤ z.1 := (List.pairwise_cons.mp hchain).1 z hz
          have hzv : z.1 < z.2 := hvalid z (List.mem_cons_of_mem _ hz)
          rintro ⟨hlt, -⟩
          rw [hs1] at hlt
          linarith
        · exact ih hchain' hvalid' s htail p hp'

lemma getLast_dominates {L : List (Int × Int)} {l : Int × Int}
    (hchain : L.Pairwise fun p q => p.2 ≤ q.1)
    (hvalid : ∀ p ∈ L, p.1 < p.2)
    (hL : L.getLast? = some l) :
    ∀ p ∈ L, p.2 ≤ l.2 := by
  induction L with
  | nil => cases hL
  | cons x t ih =>
    rcases t with - | ⟨y, t'⟩
    · intro p hp
      rcases List.mem_cons.mp hp with rfl | hp'
      · have hx : some p = some l := by simpa using hL
        obtain rfl := Option.some_inj.mp hx
        exact le_refl _
      · cases hp'
    · rw [List.getLast?_cons_cons] at hL
      intro p hp
      rcases List.mem_cons.mp hp with rfl | hp'
      · have hl := List.mem_of_getLast?_eq_some hL
        have h1 : p.2 ≤ l.1 := (List.pairwise_cons.mp hchain).1 l hl
        have h2 : l.1 < l.2 := hvalid l (List.mem_cons_of_mem _ hl)
        linarith
      · exact ih (List.pairwise_cons.mp hchain).2
          (fun q hq => hvalid q (List.mem_cons_of_mem _ hq)) hL p hp'

/-- C1 (amended): when the timed input events are non-degenerate
(start < end) and pairwise non-overlapping, every candidate interval of the
Free-Slot Finder is disjoint from every timed event's `[start, end)`. -/
theorem free_slots_disjoint (work_start work_end duration : Int) (day_events : List Event)
    (hvalid : ∀ p ∈ day_events.filterMap eventInterval, p.1 < p.2)
    (hdisj : (day_events.filterMap eventInterval).Pairwise
      fun p q => ¬(p.1 < q.2 ∧ q.1 < p.2)) :
    ∀ s ∈ find_free_slots work_start work_end day_events duration,
      ∀ p ∈ day_events.filterMap eventInterval, ¬(s.1 < p.2 ∧ p.1 < s.2) := by
  intro s hs p hp
  have hperm : List.Perm (sortedIntervals day_events) (day_events.filterMap eventInterval) :=
    List.perm_insertionSort _ _
  have hvalidL : ∀ q ∈ sortedIntervals day_events, q.1 < q.2 :=
    fun q hq => hvalid q (hperm.mem_iff.mp hq)
  have hdisjL : (sortedIntervals day_events).Pairwise
      fun p q => ¬(p.1 < q.2 ∧ q.1 < p.2) := by
    refine (List.Perm.pairwise_iff ?_ hperm).mpr hdisj
    intro a b hab hcontra
    exact hab ⟨hcontra.2, hcontra.1⟩
  have hsorted : (sortedIntervals day_events).Pairwise startLE :=
    List.sorted_insertionSort startLE _
  have hchain := chain_of_sorted_disjoint hsorted hdisjL hvalidL
  have hpL : p ∈ sortedIntervals day_events := hperm.mem_iff.mpr hp
  rcases mem_find_free_slots hs with hbf | hbw | hal
  · obtain ⟨rfl, hcase⟩ := slot_before_first_mem hbf
    rcases hcase with ⟨hnil, -⟩ | ⟨e, rest, hLe, -, hd⟩
    · rw [hnil] at hpL
      cases hpL
    · have hep : e.1 ≤ p.1 := by
        rw [hLe] at hpL hsorted
        rcases List.mem_cons.mp hpL with rfl | hp'
        · exact le_refl _
        · exact (List.pairwise_cons.mp hsorted).1 p hp'
      rintro ⟨-, hlt⟩
      have hlt' : p.1 < work_start + duration := hlt
      linarith
  · exact slots_between_disjoint hchain hvalidL s hbw p hpL
  · rcases slot_after_last_mem hal with ⟨l, hL, rfl, -, -⟩ | ⟨hnil, -, -⟩
    · have hdom := getLast_dominates hchain hvalidL hL p hpL
      rintro ⟨hlt, -⟩
      have hlt' : l.2 < p.2 := hlt
      linarith
    · rw [hnil] at hpL
      cases hpL

/-- C1 counterexample: with overlapping input events (here event B nested
inside event A), `_find_free_slots` emits the slot (580, 640), which overlaps
event A = [540, 1000). -/
theorem free_slots_overlap_cex :
    (580, 640) ∈ find_free_slots 540 1020
        [⟨"A", some 540, some 1000⟩, ⟨"B", some 560, some 580⟩,
          ⟨"C", some 900, some 910⟩] 60 ∧
      (540, 1000) ∈ ([⟨"A", some 540, some 1000⟩, ⟨"B", some 560, some 580⟩,
          ⟨"C", some 900, some 910⟩] : List Event).filterMap eventInterval ∧
      ((580 : Int) < 1000 ∧ (540 : Int) < 640) := by decide

/-- Witness for `free_slots_disjoint` at a concrete day with one event. -/
theorem free_slots_disjoint_witness : ¬((540 : Int) < 660 ∧ (600 : Int) < 600) :=
  free_slots_disjoint 540 1020 60 [⟨"E", some 600, some 660⟩]
    (by decide) (by decide) (540, 600) (by decide) (600, 660) (by decide)

/-! ## C2: containment counterexample and witness -/

/-- C2 counterexample: an event outside the working window (05:00-06:00) makes
`_find_free_slots` emit the slot (360, 420) = 06:00-07:00, which starts before
`workStart` = 09:00. -/
theorem free_slots_window_cex :
    (360, 420) ∈ find_free_slots 540 1020 [⟨"Early", some 300, some 360⟩] 60 ∧
      ¬((540 : Int) ≤ 360) := by decide

/-- Witness for `free_slots_within_window` at a concrete in-window event. -/
theorem free_slots_within_window_witness : (540 : Int) ≤ 540 ∧ (600 : Int) ≤ 1020 :=
  free_slots_within_window 540 1020 60 [⟨"E", some 600, some 660⟩] (by decide)
    (540, 600) (by decide)

/-! ## C3: failure semantics -/

/-- C3 (amended): a duration longer than the whole working window yields no
slots, provided every timed event lies inside the window; (non-positive
durations, by contrast, do produce degenerate slots - see the
counterexample). -/
theorem find_free_slots_too_long_empty (work_start work_end duration : Int)
    (day_events : List Event)
    (hin : ∀ p ∈ day_events.filterMap eventInterval,
      work_start ≤ p.1 ∧ p.1 ≤ p.2 ∧ p.2 ≤ work_end)
    (hdur : work_end - work_start < duration) :
    find_free_slots work_start work_end day_events duration = [] := by
  have hinL : ∀ p ∈ sortedIntervals day_events,
      work_start ≤ p.1 ∧ p.1 ≤ p.2 ∧ p.2 ≤ work_end :=
    fun p hp => hin p (mem_sortedIntervals.mp hp)
  have hbf : slot_before_first work_start work_end duration (sortedIntervals day_events)
      = [] := by
    rcases hLL : sortedIntervals day_events with - | ⟨e, rest⟩
    · simp only [slot_before_first]
      rw [if_neg (by omega)]
    · obtain ⟨ha, hb, hc⟩ := hinL e (by rw [hLL]; exact List.mem_cons_self _ _)
      simp only [slot_before_first]
      by_cases h1 : work_start < e.1
      · rw [if_pos h1, if_neg (by omega)]
      · rw [if_neg h1]
  have hbw : slots_between duration (sortedIntervals day_events) = [] := by
    rcases h : slots_between duration (sortedIntervals day_events) with - | ⟨s, rest⟩
    · rfl
    · exfalso
      have hs : s ∈ slots_between duration (sortedIntervals day_events) := by
        rw [h]; exact List.mem_cons_self _ _
      obtain ⟨c, n, hzip, -, hd, -⟩ := slots_between_mem hs
      obtain ⟨hc1, hc2, hc3⟩ := hinL c (List.of_mem_zip hzip).1
      obtain ⟨hn1, hn2, hn3⟩ := hinL n (List.mem_of_mem_tail (List.of_mem_zip hzip).2)
      omega
  have hal : slot_after_last work_start work_end duration (sortedIntervals day_events)
      = [] := by
    unfold slot_after_last
    rcases hL : (sortedIntervals day_events).getLast? with - | l
    · dsimp only
      rw [if_neg (by omega)]
    · obtain ⟨ha, hb, hc⟩ := hinL l (List.mem_of_getLast?_eq_some hL)
      dsimp only
      rw [if_neg (by omega)]
  simp only [find_free_slots]
  rw [hbf, hbw, hal]
  rfl

/-- C3 counterexample: a zero duration does not yield zero fitting slots; with
one Tuesday event the Suggester returns one degenerate TimeBlock, not `[]`. -/
theorem nonpositive_duration_cex :
    (suggest_time_blocks (fun _ _ => [⟨"E", some 1980, some 2040⟩]) 0 "meeting"
      1440 1440 5).length = 1 := by decide

/-- Witness for `find_free_slots_too_long_empty`: a 481-minute request in the
480-minute working window. -/
theorem find_free_slots_too_long_empty_witness :
    find_free_slots 540 1020 [⟨"E", some 600, some 660⟩] 481 = [] :=
  find_free_slots_too_long_empty 540 1020 481 [⟨"E", some 600, some 660⟩]
    (by decide) (by decide)

/-! ## C4: conflict predicate -/

/-- C4 (amended): `_events_overlap` is symmetric, touching endpoints do not
conflict, events missing a timestamp never conflict; however an event does
conflict with itself exactly when it has both timestamps and positive length
(the Analyzer itself only ever tests pairs at distinct list positions). -/
theorem events_overlap_props :
    (∀ e1 e2 : Event, events_overlap e1 e2 = events_overlap e2 e1) ∧
    (∀ e1 e2 : Event, e1.end_time = e2.start_time → events_overlap e1 e2 = false) ∧
    (∀ e1 e2 : Event, (e1.start_time = none ∨ e1.end_time = none ∨
        e2.start_time = none ∨ e2.end_time = none) → events_overlap e1 e2 = false) ∧
    (∀ (e : Event) (s t : Int), e.start_time = some s → e.end_time = some t →
      events_overlap e e = decide (s < t)) := by
  refine ⟨?_, ?_, ?_, ?_⟩
  · rintro ⟨t1, os1, oe1⟩ ⟨t2, os2, oe2⟩
    cases os1 <;> cases oe1 <;> cases os2 <;> cases oe2 <;>
      simp only [events_overlap, eventInterval] <;>
      rw [decide_eq_decide] <;> exact and_comm
  · rintro ⟨t1, os1, oe1⟩ ⟨t2, os2, oe2⟩ h
    dsimp only at h
    cases os1 <;> cases oe1 <;> cases os2 <;> cases oe2 <;>
      simp_all only [events_overlap, eventInterval, Option.some.injEq] <;>
      (try rfl) <;> subst h <;> simp
  · rintro ⟨t1, os1, oe1⟩ ⟨t2, os2, oe2⟩ h
    dsimp only at h
    cases os1 <;> cases oe1 <;> cases os2 <;> cases oe2 <;>
      simp_all [events_overlap, eventInterval]
  · rintro ⟨t1, os1, oe1⟩ s t hs ht
    dsimp only at hs ht
    subst hs
    subst ht
    simp only [events_overlap, eventInterval]
    rw [decide_eq_decide]
    exact and_self_iff
  
/-- C4 counterexample: a positive-length event conflicts with itself under
`_events_overlap`, contradicting "an event never conflicts with itself". -/
theorem events_overlap_self_cex :
    events_overlap ⟨"Standup", some 0, some 60⟩ ⟨"Standup", some 0, some 60⟩ = true := by
  decide

/-- Witness for `events_overlap_props` at two concrete touching events. -/
theorem events_overlap_props_witness :
    events_overlap ⟨"A", some 0, some 60⟩ ⟨"B", some 60, some 120⟩ = false :=
  events_overlap_props.2.1 ⟨"A", some 0, some 60⟩ ⟨"B", some 60, some 120⟩ rfl

/-! ## C5: preferred-time bonus formula -/

/-- C5: the preferred-times loop of the scorer adds exactly
`20 * (1 - minutesOff/30)` for every anchor within 30 minutes of the slot
start (all such anchors contribute), and an anchor hit exactly adds +20 on
top of the running score (the base score being 50). -/
theorem preferred_bonus_formula :
    (∀ (slot_minute : Int) (anchors : List (Int × Int)) (init : ℚ),
      anchors.foldl (preferredBonusStep slot_minute) init =
        init + ((anchors.filter fun a =>
              decide (|slot_minute - (a.1 * 60 + a.2)| ≤ 30)).map fun a =>
            20 * (1 - (|slot_minute - (a.1 * 60 + a.2)| : ℚ) / 30)).sum) ∧
    (∀ (slot_minute : Int) (anchor : Int × Int),
      |slot_minute - (anchor.1 * 60 + anchor.2)| = 0 →
      preferredBonusStep slot_minute 50 anchor = 50 + 20) := by
  constructor
  · intro slot_minute anchors
    induction anchors with
    | nil => intro init; simp
    | cons a l ih =>
      intro init
      rw [List.foldl_cons, ih]
      by_cases h : |slot_minute - (a.1 * 60 + a.2)| ≤ 30
      · rw [List.filter_cons_of_pos (by simpa using h), List.map_cons, List.sum_cons]
        simp only [preferredBonusStep, if_pos h]
        push_cast
        ring
      · rw [List.filter_cons_of_neg (by simpa using h)]
        simp only [preferredBonusStep, if_neg h]
  · intro slot_minute anchor h
    simp only [preferredBonusStep, h]
    norm_num

/-- Witness for `preferred_bonus_formula`: a 10:00 slot at the 10:00 anchor. -/
theorem preferred_bonus_formula_witness :
    preferredBonusStep 600 50 (10, 0) = 50 + 20 :=
  preferred_bonus_formula.2 600 (10, 0) (by decide)

/-! ## Membership decomposition for the Suggester -/

lemma getD_zero_mem {α : Type} {l : List α} (d : α) (h : l ≠ []) : l.getD 0 d ∈ l := by
  cases l with
  | nil => exact absurd rfl h
  | cons x t => exact List.mem_cons_self _ _

lemma mem_analyze_day {duration : Int} {event_type : String} {existing_events : List Event}
    {d : Int} {tb : TimeBlock} (h : tb ∈ analyze_day duration event_type existing_events d) :
    ∃ s ∈ find_free_slots (d * 1440 + 540) (d * 1440 + 1020)
        (existing_events.filter (day_filter d)) duration,
      tb = ⟨s.1, s.2,
        score_time_slot s.1 s.2 event_type (existing_events.filter (day_filter d)),
        generate_reason s.1 s.2 event_type (existing_events.filter (day_filter d))⟩ := by
  simp only [analyze_day, List.mem_map] at h
  obtain ⟨s, hs, rfl⟩ := h
  exact ⟨s, hs, rfl⟩

lemma mem_suggest_time_blocks {get_events : Int → Int → List Event} {duration_minutes : Int}
    {event_type : String} {start_date end_date : Int} {max_suggestions : Nat} {tb : TimeBlock}
    (h : tb ∈ suggest_time_blocks get_events duration_minutes event_type start_date end_date
      max_suggestions) :
    ∃ d, is_workday d = true ∧
      tb ∈ analyze_day duration_minutes event_type (get_events start_date end_date) d := by
  have h1 : tb ∈ sorted_suggestions get_events duration_minutes event_type start_date
      end_date := List.mem_of_mem_take h
  have h2 : tb ∈ generated_suggestions get_events duration_minutes event_type start_date
      end_date := (List.mem_insertionSort scoreDesc).mp h1
  simp only [generated_suggestions, List.mem_flatMap] at h2
  obtain ⟨d, -, htb⟩ := h2
  by_cases hw : is_workday d
  · rw [if_pos hw] at htb
    exact ⟨d, by simpa using hw, htb⟩
  · rw [if_neg hw] at htb
    cases htb

/-! ## C6: score bounds -/

lemma score_time_slot_bounds (start_time end_time : Int) (event_type : String)
    (day_events : List Event) :
    0 ≤ score_time_slot start_time end_time event_type day_events ∧
      score_time_slot start_time end_time event_type day_events ≤ 100 := by
  simp only [score_time_slot]
  exact ⟨le_max_left _ _, max_le (by norm_num) (min_le_left _ _)⟩

/-- C6: the scorer always returns a value in [0, 100] (final clamp), and
hence so is the score of every TimeBlock the Suggester returns. -/
theorem score_bounds :
    (∀ (start_time end_time : Int) (event_type : String) (day_events : List Event),
      0 ≤ score_time_slot start_time end_time event_type day_events ∧
        score_time_slot start_time end_time event_type day_events ≤ 100) ∧
    (∀ (get_events : Int → Int → List Event) (duration_minutes : Int) (event_type : String)
        (start_date end_date : Int) (max_suggestions : Nat) (tb : TimeBlock),
      tb ∈ suggest_time_blocks get_events duration_minutes event_type start_date end_date
          max_suggestions →
      0 ≤ tb.score ∧ tb.score ≤ 100) := by
  refine ⟨score_time_slot_bounds, ?_⟩
  intro gef dm et sd ed ms tb h
  obtain ⟨d, -, htb⟩ := mem_suggest_time_blocks h
  obtain ⟨s, -, rfl⟩ := mem_analyze_day htb
  exact score_time_slot_bounds _ _ _ _

/-- Witness for `score_bounds` at the first TimeBlock of a concrete request. -/
theorem score_bounds_witness :
    0 ≤ ((suggest_time_blocks (fun _ _ => [⟨"E", some 1980, some 2040⟩]) 0 "meeting"
        1440 1440 5).getD 0 ⟨0, 0, 0, ""⟩).score ∧
      ((suggest_time_blocks (fun _ _ => [⟨"E", some 1980, some 2040⟩]) 0 "meeting"
        1440 1440 5).getD 0 ⟨0, 0, 0, ""⟩).score ≤ 100 :=
  score_bounds.2 (fun _ _ => [⟨"E", some 1980, some 2040⟩]) 0 "meeting" 1440 1440 5 _
    (getD_zero_mem _ (List.length_pos.mp (by decide)))

/-! ## C7: ranking, truncation, stability -/

/-- C7: the Suggester returns at most `max_suggestions` blocks; the result is
the `max_suggestions`-prefix of the stable descending sort of the generated
suggestions; it is sorted by score descending; and two equal-score
suggestions keep their original generation order through the sort. -/
theorem suggest_sorted_truncated (get_events : Int → Int → List Event)
    (duration_minutes : Int) (event_type : String) (start_date end_date : Int)
    (max_suggestions : Nat) :
    (suggest_time_blocks get_events duration_minutes event_type start_date end_date
        max_suggestions).length ≤ max_suggestions ∧
    suggest_time_blocks get_events duration_minutes event_type start_date end_date
        max_suggestions =
      (sorted_suggestions get_events duration_minutes event_type start_date end_date).take
        max_suggestions ∧
    (suggest_time_blocks get_events duration_minutes event_type start_date end_date
        max_suggestions).Pairwise (fun a b => b.score ≤ a.score) ∧
    (∀ a b : TimeBlock,
      [a, b].Sublist (generated_suggestions get_events duration_minutes event_type
        start_date end_date) →
      a.score = b.score →
      [a, b].Sublist (sorted_suggestions get_events duration_minutes event_type
        start_date end_date)) := by
  refine ⟨List.length_take_le _ _, rfl, ?_, ?_⟩
  · exact List.Pairwise.sublist (List.take_sublist _ _)
      (List.sorted_insertionSort scoreDesc _)
  · intro a b hsub heq
    exact List.pair_sublist_insertionSort (le_of_eq heq.symm) hsub

/-- Witness for `suggest_sorted_truncated`: on an eventless Tuesday the two
(equal, duplicated) generated suggestions survive the sort in order. -/
theorem suggest_sorted_truncated_witness :
    [(generated_suggestions (fun _ _ => []) 60 "meeting" 1440 1440).getD 0 ⟨0, 0, 0, ""⟩,
      (generated_suggestions (fun _ _ => []) 60 "meeting" 1440 1440).getD 0
        ⟨0, 0, 0, ""⟩].Sublist
      (sorted_suggestions (fun _ _ => []) 60 "meeting" 1440 1440) :=
  (suggest_sorted_truncated (fun _ _ => []) 60 "meeting" 1440 1440 5).2.2.2 _ _
    (List.Sublist.refl _) rfl

/-! ## C8: weekend exclusion -/

lemma day_filter_interval_start {d : Int} {e : Event} {p : Int × Int}
    (he : day_filter d e = true) (hp : eventInterval e = some p) :
    d * 1440 ≤ p.1 ∧ p.1 < d * 1440 + 1440 := by
  rcases e with ⟨t, os, oe⟩
  cases os with
  | none => simp [day_filter] at he
  | some s =>
    cases oe with
    | none => cases hp
    | some t2 =>
      injection hp with h
      subst h
      simpa [day_filter] using he

/-- Every candidate slot starts inside `[lo, hi)` when the duration is
non-negative, all timed events start in `[lo, hi)` with start ≤ end, and the
working window sits inside `[lo, hi)`. -/
lemma find_free_slots_start_in_day {work_start work_end duration lo hi : Int}
    {day_events : List Event}
    (hdur : 0 ≤ duration) (hlo : lo ≤ work_start) (hhi : work_end < hi)
    (hwswe : work_start ≤ work_end)
    (hstarts : ∀ p ∈ day_events.filterMap eventInterval, lo ≤ p.1 ∧ p.1 < hi)
    (hval : ∀ p ∈ day_events.filterMap eventInterval, p.1 ≤ p.2) :
    ∀ s ∈ find_free_slots work_start work_end day_events duration,
      lo ≤ s.1 ∧ s.1 < hi := by
  intro s hs
  have hstartsL : ∀ p ∈ sortedIntervals day_events, lo ≤ p.1 ∧ p.1 < hi :=
    fun p hp => hstarts p (mem_sortedIntervals.mp hp)
  have hvalL : ∀ p ∈ sortedIntervals day_events, p.1 ≤ p.2 :=
    fun p hp => hval p (mem_sortedIntervals.mp hp)
  rcases mem_find_free_slots hs with hbf | hbw | hal
  · obtain ⟨rfl, -⟩ := slot_before_first_mem hbf
    exact ⟨hlo, by omega⟩
  · obtain ⟨c, n, hzip, rfl, -, hfit⟩ := slots_between_mem hbw
    obtain ⟨hc1, hc2⟩ := hstartsL c (List.of_mem_zip hzip).1
    obtain ⟨hn1, hn2⟩ := hstartsL n (List.mem_of_mem_tail (List.of_mem_zip hzip).2)
    have hcv := hvalL c (List.of_mem_zip hzip).1
    refine ⟨?_, ?_⟩
    · show lo ≤ c.2
      omega
    · show c.2 < hi
      omega
  · rcases slot_after_last_mem hal with ⟨l, hL, rfl, -, hfit⟩ | ⟨-, rfl, -⟩
    · obtain ⟨hl1, hl2⟩ := hstartsL l (List.mem_of_getLast?_eq_some hL)
      have hlv := hvalL l (List.mem_of_getLast?_eq_some hL)
      refine ⟨?_, ?_⟩
      · show lo ≤ l.2
        omega
      · show l.2 < hi
        omega
    · exact ⟨hlo, by omega⟩

/-- C8 (amended): for a non-negative duration and well-formed timed events
(start ≤ end), every suggested TimeBlock is dated Monday-Friday; the
counterexample shows a malformed event breaks this. -/
theorem suggest_weekday_only (get_events : Int → Int → List Event) (duration_minutes : Int)
    (event_type : String) (start_date end_date : Int) (max_suggestions : Nat)
    (hdur : 0 ≤ duration_minutes)
    (hval : ∀ p ∈ (get_events start_date end_date).filterMap eventInterval, p.1 ≤ p.2) :
    ∀ tb ∈ suggest_time_blocks get_events duration_minutes event_type start_date end_date
      max_suggestions, weekdayOf tb.start_time < 5 := by
  intro tb htb
  obtain ⟨d, hw, htb'⟩ := mem_suggest_time_blocks htb
  obtain ⟨s, hs, rfl⟩ := mem_analyze_day htb'
  have hsub : ∀ p ∈ ((get_events start_date end_date).filter
        (day_filter d)).filterMap eventInterval,
      p ∈ (get_events start_date end_date).filterMap eventInterval := by
    intro p hp
    obtain ⟨e, he, hep⟩ := List.mem_filterMap.mp hp
    exact List.mem_filterMap.mpr ⟨e, List.mem_of_mem_filter he, hep⟩
  have hstarts : ∀ p ∈ ((get_events start_date end_date).filter
        (day_filter d)).filterMap eventInterval,
      d * 1440 ≤ p.1 ∧ p.1 < d * 1440 + 1440 := by
    intro p hp
    obtain ⟨e, he, hep⟩ := List.mem_filterMap.mp hp
    exact day_filter_interval_start (List.of_mem_filter he) hep
  have hbounds := find_free_slots_start_in_day hdur (by omega) (by omega) (by omega)
    hstarts (fun p hp => hval p (hsub p hp)) s hs
  have hwd : d % 7 < 5 := by
    have := of_decide_eq_true hw
    exact this
  show weekdayOf s.1 < 5
  have hdarg : s.1 / 1440 = d := by omega
  simp only [weekdayOf, dateOf, hdarg]
  exact hwd

/-- C8 counterexample: one malformed event (start Monday 02:00, end the
previous Sunday 20:00) makes the Suggester return a TimeBlock dated Sunday
(weekday 6). -/
theorem suggest_weekend_cex :
    ((suggest_time_blocks (fun _ _ => [⟨"Overnight", some 10200, some 9840⟩]) 60 "meeting"
      10080 11100 5).map fun tb => weekdayOf tb.start_time) = [6] := by decide

/-- Witness for `suggest_weekday_only` at a concrete Tuesday request. -/
theorem suggest_weekday_only_witness :
    weekdayOf (((suggest_time_blocks (fun _ _ => [⟨"E", some 1980, some 2040⟩]) 60 "meeting"
      1440 1440 5).getD 0 ⟨0, 0, 0, ""⟩).start_time) < 5 :=
  suggest_weekday_only (fun _ _ => [⟨"E", some 1980, some 2040⟩]) 60 "meeting" 1440 1440 5
    (by decide) (by decide) _ (getD_zero_mem _ (List.length_pos.mp (by decide)))

/-! ## C9: unknown-category fallback -/

/-- The spec's description of scoring for a category label absent from the
profile table: only the base score and the buffer, weekday and
time-of-day/lunch rules apply (no preferred/avoided-time terms, and no
clustering since an unknown category has no keywords). -/
def fallback_score (start_time end_time : Int) (day_events : List Event) : ℚ :=
  let score : ℚ := 50
  let buffer_before := get_buffer_time start_time day_events true
  let buffer_after := get_buffer_time end_time day_events false
  let score := if buffer_before ≥ 15 then score + 10 else score
  let score := if buffer_after ≥ 15 then score + 10 else score
  let weekday := weekdayOf start_time
  let score :=
    if weekday = 0 then score + 5
    else if weekday = 4 then score - 5
    else if weekday ≥ 5 then score - 20
    else score
  let hour := hourOf start_time
  let score :=
    if 9 ≤ hour ∧ hour ≤ 11 then score
    else if 14 ≤ hour ∧ hour ≤ 16 then score
    else if hour ≥ 17 then score - 20
    else score
  let score := if 12 ≤ hour ∧ hour ≤ 13 then score - 25 else score
  max 0 (min 100 score)

/-- C9: scoring a category absent from the profile table does not fail; it
degrades to the empty profile, so exactly the base-score, buffer, weekday and
time-of-day/lunch rules apply. -/
theorem unknown_category_fallback (start_time end_time : Int) (event_type : String)
    (day_events : List Event)
    (h1 : event_type ≠ "meeting") (h2 : event_type ≠ "call") (h3 : event_type ≠ "focus")
    (h4 : event_type ≠ "lunch") (h5 : event_type ≠ "break") :
    score_time_slot start_time end_time event_type day_events =
      fallback_score start_time end_time day_events := by
  have hpref : event_type_preferences event_type = none := by
    simp only [event_type_preferences, if_neg h1, if_neg h2, if_neg h3, if_neg h4, if_neg h5]
  have hkw : type_keywords event_type = [] := by
    simp only [type_keywords, if_neg h1, if_neg h2, if_neg h3, if_neg h4, if_neg h5]
  have hsim : ∀ title, are_event_types_similar event_type title = false := by
    intro title
    simp [are_event_types_similar, hkw]
  have hcount : count_similar_events_nearby start_time end_time event_type day_events = 0 := by
    simp only [count_similar_events_nearby, List.length_eq_zero, List.filter_eq_nil_iff]
    intro e he
    cases hse : e.start_time
    · simp [hse]
    · simp [hse, hsim]
  simp only [score_time_slot, fallback_score, hpref, hcount, Option.map_none',
    Option.getD_none, List.foldl_nil, h1, h2, h3, h4, h5, ne_eq, not_false_eq_true,
    and_true, or_self, if_false, lt_irrefl, if_neg (lt_irrefl 0)]

/-- Witness for `unknown_category_fallback` at the unknown category
"prayer". -/
theorem unknown_category_fallback_witness :
    score_time_slot 1980 2040 "prayer" [] = fallback_score 1980 2040 [] :=
  unknown_category_fallback 1980 2040 "prayer" [] (by decide) (by decide) (by decide)
    (by decide) (by decide)

/-! ## C10: participants are ignored -/

/-- C10: `suggest_optimal_meeting_times` ignores its `participants` argument:
for a fixed store and current time, any two participant lists give identical
results, equal to `suggest_time_blocks` with category "meeting" over the
window `now .. now + date_range_days`. -/
theorem meeting_times_ignore_participants (get_events : Int → Int → List Event) (now : Int)
    (participants1 participants2 : List String)
    (duration_minutes date_range_days : Int) :
    suggest_optimal_meeting_times get_events now participants1 duration_minutes
        date_range_days =
      suggest_optimal_meeting_times get_events now participants2 duration_minutes
        date_range_days ∧
    suggest_optimal_meeting_times get_events now participants1 duration_minutes
        date_range_days =
      suggest_time_blocks get_events duration_minutes "meeting" now
        (now + date_range_days * 1440) 5 :=
  ⟨rfl, rfl⟩

end TimeBlocker
